import Mathlib

/-!
Verification of the Trade Republic statement extraction engine
(`src/trimport.py`) against its natural-language specification.

The Python module is shallowly embedded below.  Strings are Lean `String`s
(lists of Unicode characters, as in Python), Python `float` amounts are
modelled as exact rationals `ℚ` (the parsed decimals are exact decimal
fractions; no arithmetic beyond negation/abs is performed on them, so no
rounding behaviour is observable in any claim), a Python function that can
raise is modelled with `Except Unit`, and the regular-expression searches
of the module are implemented directly as executable backtracking matchers
with the leftmost-match, greedy-with-backtracking semantics of Python's
`re` module, specialised to the five fixed patterns of the source.
-/

/-- Set of characters Python's `str.isspace` / `re` `\s` recognises
(the subset reachable in this repository's inputs). -/
def isPySpace (c : Char) : Bool :=
  c = ' ' || c = '\t' || c = '\n' || c = '\r' || c = '\x0b' || c = '\x0c' ||
  c = '\x1c' || c = '\x1d' || c = '\x1e' || c = '\x1f' || c = '\x85' ||
  c = '\xa0' || c = ' ' || c = ' ' || c = '　'

/-- Characters on which Python's `str.splitlines` breaks. -/
def isLineBreak (c : Char) : Bool :=
  c = '\n' || c = '\r' || c = '\x0b' || c = '\x0c' || c = '\x1c' ||
  c = '\x1d' || c = '\x1e' || c = '\x85' || c = ' ' || c = ' '

/-- Python regex word character `\w` (ASCII alphanumerics, underscore, and
the German letters occurring in this module's vocabulary). -/
def isWordChar (c : Char) : Bool :=
  c.isAlphanum || c = '_' ||
  c = 'Ä' || c = 'Ö' || c = 'Ü' || c = 'ä' || c = 'ö' || c = 'ü' || c = 'ß'

/-- Word-character test on the first character of a suffix (false at end of
input); used for the `\b` boundary checks. -/
def headIsWord : List Char → Bool
  | [] => false
  | c :: _ => isWordChar c

/-- ASCII uppercase A-Z test (Python's character class `[A-Z]`). -/
def isUpperAZ (c : Char) : Bool := 'A' ≤ c && c ≤ 'Z'

/-- ASCII lowercase a-z test. -/
def isLowerAZ (c : Char) : Bool := 'a' ≤ c && c ≤ 'z'

/-- Python `str.lower` on one character (ASCII plus the German letters used
by the module; length-preserving on all of them). -/
def pyLowerChar (c : Char) : Char :=
  if isUpperAZ c then Char.ofNat (c.toNat + 32)
  else if c = 'Ä' then 'ä' else if c = 'Ö' then 'ö' else if c = 'Ü' then 'ü'
  else c

/-- Python `str.upper` on one character other than `ß` (which expands). -/
def pyUpperChar (c : Char) : Char :=
  if isLowerAZ c then Char.ofNat (c.toNat - 32)
  else if c = 'ä' then 'Ä' else if c = 'ö' then 'Ö' else if c = 'ü' then 'Ü'
  else c

/-- Python `str.lower` (on the characters reachable here). -/
def pyLower (s : String) : String := String.mk (s.data.map pyLowerChar)

/-- Python `str.upper`; `'ß'.upper()` is the two-character string `"SS"`. -/
def pyUpper (s : String) : String :=
  String.mk (s.data.foldr (fun c acc =>
    if c = 'ß' then 'S' :: 'S' :: acc else pyUpperChar c :: acc) [])

/-- Strip characters satisfying `p` from both ends of a character list. -/
def stripWhile (p : Char → Bool) (cs : List Char) : List Char :=
  ((cs.dropWhile p).reverse.dropWhile p).reverse

/-- Python `str.strip()` (no argument: strips whitespace). -/
def pyStrip (s : String) : String := String.mk (stripWhile isPySpace s.data)

/-- Python `str.strip('.')`. -/
def stripDots (s : String) : String := String.mk (stripWhile (· = '.') s.data)

/-- Helper for `pySplitlines`. -/
def pySplitlinesAux : List Char → List Char → List (List Char)
  | [], acc => if acc.isEmpty then [] else [acc]
  | '\r' :: '\n' :: rest, acc => acc :: pySplitlinesAux rest []
  | c :: rest, acc =>
      if isLineBreak c then acc :: pySplitlinesAux rest []
      else pySplitlinesAux rest (acc ++ [c])

/-- Python `str.splitlines()`. -/
def pySplitlines (s : String) : List String :=
  (pySplitlinesAux s.data []).map String.mk

/-- Python slice `s[a:]` (character indices, as in Python `str`). -/
def strDrop (s : String) (a : Nat) : String := String.mk (s.data.drop a)

/-- Python slice `s[a:b]`; empty when `a ≥ b`, as in Python. -/
def strSlice (s : String) (a b : Nat) : String :=
  String.mk ((s.data.take b).drop a)

/-- Python `s[:a] + s[b:]` (used to delete a matched span). -/
def strCut (s : String) (a b : Nat) : String :=
  String.mk (s.data.take a ++ s.data.drop b)

/-- Value of a list of ASCII digit characters (Python `int` on it). -/
def natOfDigits (cs : List Char) : Nat :=
  cs.foldl (fun a c => a * 10 + (c.toNat - 48)) 0

/-- Number of leading characters satisfying `p`. -/
def countLeading (p : Char → Bool) : List Char → Nat
  | [] => 0
  | c :: rest => if p c then countLeading p rest + 1 else 0

/-- Number of leading ASCII digits. -/
def countLeadingDigits (cs : List Char) : Nat := countLeading Char.isDigit cs

/-- Try `f n`, `f (n-1)`, ..., `f 1` in order and return the first success:
the backtracking order of a greedy bounded repetition in a regex. -/
def tryLens (f : Nat → Option Nat) : Nat → Option Nat
  | 0 => none
  | n + 1 =>
      match f (n + 1) with
      | some v => some v
      | none => tryLens f n

/-- Substring containment (Python's `needle in haystack` on `str`). -/
def isSubListOf (needle : List Char) : List Char → Bool
  | [] => needle.isEmpty
  | c :: rest => needle.isPrefixOf (c :: rest) || isSubListOf needle rest

/-- Generic leftmost-match scanner: `m prev suffix` decides whether the
pattern matches at the start of `suffix` (`prev` is the character just
before, for `\b` checks) and returns the match length.  `scanL` returns the
(start, end) character span of the leftmost match, like `re.search`. -/
def scanL (m : Option Char → List Char → Option Nat) :
    List Char → Option Char → Nat → Option (Nat × Nat)
  | [], prev, i =>
      match m prev [] with
      | some len => some (i, i + len)
      | none => none
  | c :: rest, prev, i =>
      match m prev (c :: rest) with
      | some len => some (i, i + len)
      | none => scanL m rest (some c) (i + 1)

/-- Matcher for `DATE_PATTERN = \b(\d{1,2}\.\d{1,2}\.\d{4})\b`
(src/trimport.py line 14) at one position, with greedy backtracking on the
two bounded digit groups. -/
def matchDateNumAt (prev : Option Char) (cs : List Char) : Option Nat :=
  if (prev.map isWordChar).getD false then none
  else
    tryLens (fun l1 =>
      if l1 ≤ countLeadingDigits cs then
        match cs.drop l1 with
        | '.' :: rest2 =>
            tryLens (fun l2 =>
              if l2 ≤ countLeadingDigits rest2 then
                match rest2.drop l2 with
                | '.' :: rest3 =>
                    if (rest3.take 4).length = 4 && (rest3.take 4).all Char.isDigit
                        && !headIsWord (rest3.drop 4)
                    then some (l1 + 1 + l2 + 1 + 4) else none
                | _ => none
              else none) (min 2 (countLeadingDigits rest2))
        | _ => none
      else none) (min 2 (countLeadingDigits cs))

/-- Character class `[A-Za-zÄÖÜäöüß.]` of `DATE_WORD_PATTERN`. -/
def isMonthChar (c : Char) : Bool :=
  isUpperAZ c || isLowerAZ c || c = '.' ||
  c = 'Ä' || c = 'Ö' || c = 'Ü' || c = 'ä' || c = 'ö' || c = 'ü' || c = 'ß'

/-- Matcher for `DATE_WORD_PATTERN = \b(\d{1,2})\s+([A-Za-zÄÖÜäöüß.]+)\s+(\d{4})\b`
(src/trimport.py lines 15-18) at one position.  The character classes of the
components are pairwise disjoint, so greedy matching needs backtracking only
on the leading `\d{1,2}`. -/
def matchDateWordAt (prev : Option Char) (cs : List Char) : Option Nat :=
  if (prev.map isWordChar).getD false then none
  else
    tryLens (fun l1 =>
      if l1 ≤ countLeadingDigits cs then
        let r1 := cs.drop l1
        let s1 := countLeading isPySpace r1
        if s1 = 0 then none
        else
          let r2 := r1.drop s1
          let m := countLeading isMonthChar r2
          if m = 0 then none
          else
            let r3 := r2.drop m
            let s2 := countLeading isPySpace r3
            if s2 = 0 then none
            else
              let r4 := r3.drop s2
              if (r4.take 4).length = 4 && (r4.take 4).all Char.isDigit
                  && !headIsWord (r4.drop 4)
              then some (l1 + s1 + m + s2 + 4) else none
      else none) (min 2 (countLeadingDigits cs))

/-- Matcher for `ISIN_PATTERN = \b([A-Z]{2}[A-Z0-9]{10})\b`
(src/trimport.py line 19) at one position. -/
def matchIsinAt (prev : Option Char) (cs : List Char) : Option Nat :=
  if (prev.map isWordChar).getD false then none
  else
    match cs with
    | c1 :: c2 :: rest =>
        if isUpperAZ c1 && isUpperAZ c2 && (rest.take 10).length = 10
            && (rest.take 10).all (fun c => isUpperAZ c || c.isDigit)
            && !headIsWord (rest.drop 10)
        then some 12 else none
    | _ => none

/-- Tail check `,\d{2}` of the amount pattern. -/
def amountTail : List Char → Bool
  | ',' :: a :: b :: _ => a.isDigit && b.isDigit
  | _ => false

/-- Greedy count of consecutive `\.\d{3}` repetitions. -/
def starCount : List Char → Nat
  | '.' :: a :: b :: c :: rest =>
      if a.isDigit && b.isDigit && c.isDigit then starCount rest + 1 else 0
  | _ => 0

/-- Backtracking over the star: try `j` repetitions of `\.\d{3}` followed by
`,\d{2}`, for `j = r, r-1, ..., 0`, returning the matched tail length. -/
def tryStar (rest : List Char) : Nat → Option Nat
  | 0 => if amountTail rest then some 3 else none
  | j + 1 =>
      if amountTail (rest.drop (4 * (j + 1))) then some (4 * (j + 1) + 3)
      else tryStar rest j

/-- Matcher for the body `\d{1,3}(?:\.\d{3})*,\d{2}` of `AMOUNT_PATTERN`. -/
def matchAmountCore (cs : List Char) : Option Nat :=
  tryLens (fun len =>
    if len ≤ countLeadingDigits cs then
      (tryStar (cs.drop len) (starCount (cs.drop len))).map (fun t => len + t)
    else none) (min 3 (countLeadingDigits cs))

/-- Matcher for `AMOUNT_PATTERN = (-?\d{1,3}(?:\.\d{3})*,\d{2})`
(src/trimport.py line 20) at one position (no word-boundary anchors). -/
def matchAmountAt (_prev : Option Char) (cs : List Char) : Option Nat :=
  match cs with
  | '-' :: rest => (matchAmountCore rest).map (· + 1)
  | _ => matchAmountCore cs

/-- Matcher for the quantity pattern `\b(\d+(?:[.,]\d+)?)\b`
(src/trimport.py line 174) at one position, with full greedy backtracking
on both `\d+` groups and the optional fraction. -/
def matchQtyAt (prev : Option Char) (cs : List Char) : Option Nat :=
  if (prev.map isWordChar).getD false then none
  else
    tryLens (fun len =>
      if len ≤ countLeadingDigits cs then
        let rest := cs.drop len
        let withFrac : Option Nat :=
          match rest with
          | sep :: rest2 =>
              if sep = '.' || sep = ',' then
                (tryLens (fun dlen =>
                  if dlen ≤ countLeadingDigits rest2
                      && !headIsWord (rest2.drop dlen)
                  then some dlen else none) (countLeadingDigits rest2)).map
                  (fun dlen => len + 1 + dlen)
              else none
          | [] => none
        match withFrac with
        | some L => some L
        | none => if !headIsWord rest then some len else none
      else none) (countLeadingDigits cs)

/-- Leftmost `re.search` for a pattern matcher over a string, returning the
(start, end) span in character indices. -/
def reSearch (m : Option Char → List Char → Option Nat) (s : String) :
    Option (Nat × Nat) :=
  scanL m s.data none 0

/-- Model of `re.findall` for `AMOUNT_PATTERN`: repeatedly take the leftmost match
and continue after its end (fuel-bounded structural recursion). -/
def findallAmounts : Nat → List Char → List (List Char)
  | 0, _ => []
  | fuel + 1, cs =>
      match scanL matchAmountAt cs none 0 with
      | none => []
      | some (s, e) => (cs.take e).drop s :: findallAmounts fuel (cs.drop e)

/-- Mapping `TYPE_MAP` (src/trimport.py lines 22-33) as a lookup function. -/
def TYPE_MAP : String → String
  | "kauf" => "buy"
  | "verkauf" => "sell"
  | "übertrag" => "transfer"
  | "einzahlung" => "transfer"
  | "auszahlung" => "transfer"
  | "dividende" => "transfer"
  | "steuer" => "transfer"
  | "gebühr" => "transfer"
  | "transfer" => "transfer"
  | "handel" => "trade"
  | _ => ""

/-- The keys of `TYPE_MAP` in the order produced by
`sorted(TYPE_MAP, key=len, reverse=True)` (Python's sort is stable, so keys
of equal length keep dictionary insertion order). -/
def TYPE_KEYS : List String :=
  ["einzahlung", "auszahlung", "dividende", "übertrag", "transfer",
   "verkauf", "steuer", "gebühr", "handel", "kauf"]

/-- Constant `HEADER_TOKENS` (src/trimport.py lines 35-42). -/
def HEADER_TOKENS : List String :=
  ["DATUM", "TYP", "BESCHREIBUNG", "ZAHLUNGSEINGANG", "ZAHLUNGSAUSGANG",
   "SALDO"]

/-- Mapping `MONTH_MAP` (src/trimport.py lines 44-71) as a lookup function. -/
def MONTH_MAP : String → Option Nat
  | "jan" => some 1 | "januar" => some 1
  | "feb" => some 2 | "februar" => some 2
  | "mär" => some 3 | "märz" => some 3 | "mar" => some 3 | "maerz" => some 3
  | "apr" => some 4 | "april" => some 4
  | "mai" => some 5
  | "jun" => some 6 | "juni" => some 6
  | "jul" => some 7 | "juli" => some 7
  | "aug" => some 8 | "august" => some 8
  | "sep" => some 9 | "sept" => some 9 | "september" => some 9
  | "okt" => some 10 | "oktober" => some 10
  | "nov" => some 11 | "november" => some 11
  | "dez" => some 12 | "dezember" => some 12
  | _ => none

/-- Gregorian leap-year rule used by Python's `datetime`. -/
def isLeapYear (y : Nat) : Bool :=
  y % 4 = 0 && (y % 100 ≠ 0 || y % 400 = 0)

/-- Days in a month, as validated by Python's `datetime`. -/
def daysInMonth (m y : Nat) : Nat :=
  if m = 2 then (if isLeapYear y then 29 else 28)
  else if m = 4 || m = 6 || m = 9 || m = 11 then 30
  else 31

/-- Calendar validity as enforced by `datetime` / `datetime.strptime`
(year range 1-9999; a violation raises `ValueError` in Python). -/
def isValidDate (d m y : Nat) : Bool :=
  decide (1 ≤ y ∧ y ≤ 9999 ∧ 1 ≤ m ∧ m ≤ 12 ∧ 1 ≤ d ∧ d ≤ daysInMonth m y)

/-- Zero-padded two-digit decimal rendering. -/
def pad2 (n : Nat) : String := if n < 10 then "0" ++ toString n else toString n

/-- Zero-padded four-digit decimal rendering. -/
def pad4 (n : Nat) : String :=
  if n < 10 then "000" ++ toString n
  else if n < 100 then "00" ++ toString n
  else if n < 1000 then "0" ++ toString n
  else toString n

/-- Rendering `date.isoformat()`: `YYYY-MM-DD`. -/
def isoDate (y m d : Nat) : String := pad4 y ++ "-" ++ pad2 m ++ "-" ++ pad2 d

/-- Numerator and denominator of an unsigned decimal literal
`digits[.digits]`. -/
def decimalParts (cs : List Char) : Nat × Nat :=
  let ip := cs.takeWhile Char.isDigit
  let fp := match cs.dropWhile Char.isDigit with
    | '.' :: fr => fr.takeWhile Char.isDigit
    | _ => []
  (natOfDigits ip * 10 ^ fp.length + natOfDigits fp, 10 ^ fp.length)

/-- Python `float(s)` on the decimal literals this module produces, as an
exact rational (built with `mkRat`, so the value is kernel-computable). -/
def ratOfFloatLit (s : String) : ℚ :=
  match s.data with
  | '-' :: rest => mkRat (-((decimalParts rest).1 : ℤ)) (decimalParts rest).2
  | cs => mkRat ((decimalParts cs).1 : ℤ) (decimalParts cs).2

/-- Model of `parse_amount` (src/trimport.py lines 131-133): delete every `.`
(thousands separator), turn `,` into the decimal point, convert. -/
def parse_amount (value : String) : ℚ :=
  ratOfFloatLit (String.mk ((value.data.filter (fun c => c ≠ '.')).map
    (fun c => if c = ',' then '.' else c)))

/-- Model of `extract_amounts` (src/trimport.py lines 165-167):
`AMOUNT_PATTERN.findall` then `parse_amount` on each match. -/
def extract_amounts (s : String) : List ℚ :=
  (findallAmounts (s.data.length + 1) s.data).map
    (fun m => parse_amount (String.mk m))

/-- Model of `datetime.strptime(s, "%d.%m.%Y")` validity and ISO rendering
(`normalize_date`, src/trimport.py lines 136-137): `none` models the
`ValueError` raised on a calendar-invalid date. -/
def normalize_date (s : String) : Option String :=
  match s.data.splitOn '.' with
  | [ds, ms, ys] =>
      if ds.all Char.isDigit && ms.all Char.isDigit && ys.all Char.isDigit
          && 1 ≤ ds.length && ds.length ≤ 2 && 1 ≤ ms.length && ms.length ≤ 2
          && 1 ≤ ys.length && ys.length ≤ 4 then
        let d := natOfDigits ds
        let m := natOfDigits ms
        let y := natOfDigits ys
        if isValidDate d m y then some (isoDate y m d) else none
      else none
  | _ => none

/-- Model of `normalize_word_month` (src/trimport.py lines 140-142). -/
def normalize_word_month (month_value : String) : Option Nat :=
  MONTH_MAP (pyLower (stripDots month_value))

/-- Model of `extract_date` (src/trimport.py lines 145-162): the ISO date
(if any) and the text with the matched span removed and stripped.
`Except.error ()` models the uncaught `ValueError` that
`datetime.strptime` / `datetime(...)` raises on a matched but
calendar-invalid date. -/
def extract_date (text : String) : Except Unit (Option String × String) :=
  match reSearch matchDateNumAt text with
  | some (s, e) =>
      match normalize_date (strSlice text s e) with
      | some iso => .ok (some iso, pyStrip (strCut text s e))
      | none => .error ()
  | none =>
      match reSearch matchDateWordAt text with
      | some (s, e) =>
          let span := (text.data.take e).drop s
          let g1 := span.takeWhile Char.isDigit
          let g2 := ((span.drop g1.length).dropWhile isPySpace).takeWhile
            isMonthChar
          let g3 := span.drop (span.length - 4)
          let day := natOfDigits g1
          let year := natOfDigits g3
          match normalize_word_month (String.mk g2) with
          | some m =>
              if isValidDate day m year then
                .ok (some (isoDate year m day), pyStrip (strCut text s e))
              else .error ()
          | none => .ok (none, pyStrip text)
      | none => .ok (none, pyStrip text)

/-- Whole-word search of one lowercase keyword, as the source does with a word-bounded regex built from the key (src/trimport.py line 234). -/
def searchTypeKey (key : String) (s : String) : Option (Nat × Nat) :=
  reSearch (fun prev cs =>
    if !((prev.map isWordChar).getD false) && key.data.isPrefixOf cs
        && !headIsWord (cs.drop key.length)
    then some key.length else none) s

/-- The keyword loop of `parse_transaction_line`
(src/trimport.py lines 231-238): first key, in longest-first order, whose
whole-word search succeeds; returns the key and the match end position. -/
def findTypeMatchAux : List String → String → Option (String × Nat)
  | [], _ => none
  | k :: rest, s =>
      match searchTypeKey k s with
      | some (_, e) => some (k, e)
      | none => findTypeMatchAux rest s

/-- Type-keyword classification over the lowered remainder. -/
def findTypeMatch (s : String) : Option (String × Nat) :=
  findTypeMatchAux TYPE_KEYS s

/-- Model of `extract_quantity` (src/trimport.py lines 170-180). -/
def extract_quantity (description : String) (isin : Option (Nat × Nat)) :
    Option ℚ :=
  let searchText : List Char :=
    match isin with
    | some (_, e) => description.data.drop e
    | none => description.data
  match scanL matchQtyAt searchText none 0 with
  | none => none
  | some (s, e) =>
      let candidate := (searchText.take e).drop s
      if candidate.contains ',' then
        some (ratOfFloatLit (String.mk (candidate.map
          (fun c => if c = ',' then '.' else c))))
      else some (ratOfFloatLit (String.mk candidate))

/-- Noise markers stripped from the start of a description
(src/trimport.py line 185), in source order. -/
def NOISE_MARKERS : List String := ["buy trade", "sell trade", "buy", "sell"]

/-- Helper for `normalize_description`: first matching marker wins. -/
def normDescAux : List String → String → String
  | [], description => description
  | p :: rest, description =>
      if p.data.isPrefixOf (pyLower description).data then
        pyStrip (strDrop description p.length)
      else normDescAux rest description

/-- Model of `normalize_description` (src/trimport.py lines 183-188). -/
def normalize_description (description : String) : String :=
  normDescAux NOISE_MARKERS description

/-- UTF-8 encoding of one character, as byte values. -/
def utf8EncodeChar (c : Char) : List Nat :=
  let n := c.toNat
  if n < 0x80 then [n]
  else if n < 0x800 then [0xC0 + n / 0x40, 0x80 + n % 0x40]
  else if n < 0x10000 then
    [0xE0 + n / 0x1000, 0x80 + (n / 0x40) % 0x40, 0x80 + n % 0x40]
  else
    [0xF0 + n / 0x40000, 0x80 + (n / 0x1000) % 0x40,
     0x80 + (n / 0x40) % 0x40, 0x80 + n % 0x40]

/-- UTF-8 bytes of a string (Python `s.encode("utf-8")`). -/
def utf8Bytes (s : String) : List Nat :=
  s.data.foldr (fun c acc => utf8EncodeChar c ++ acc) []

/-- Truncation to a 32-bit word. -/
def w32 (n : Nat) : Nat := n % 4294967296

/-- 32-bit right rotation. -/
def rotr (x n : Nat) : Nat := w32 ((x >>> n) ||| (x <<< (32 - n)))

/-- SHA-256 round constants (the standard table, written in decimal). -/
def SHA_K : List Nat :=
  [1116352408, 1899447441, 3049323471, 3921009573, 961987163,
   1508970993, 2453635748, 2870763221, 3624381080, 310598401,
   607225278, 1426881987, 1925078388, 2162078206, 2614888103,
   3248222580, 3835390401, 4022224774, 264347078, 604807628,
   770255983, 1249150122, 1555081692, 1996064986, 2554220882,
   2821834349, 2952996808, 3210313671, 3336571891, 3584528711,
   113926993, 338241895, 666307205, 773529912, 1294757372,
   1396182291, 1695183700, 1986661051, 2177026350, 2456956037,
   2730485921, 2820302411, 3259730800, 3345764771, 3516065817,
   3600352804, 4094571909, 275423344, 430227734, 506948616,
   659060556, 883997877, 958139571, 1322822218, 1537002063,
   1747873779, 1955562222, 2024104815, 2227730452, 2361852424,
   2428436474, 2756734187, 3204031479, 3329325298]

/-- SHA-256 initial state (standard, in decimal). -/
def shaInit : List Nat :=
  [1779033703, 3144134277, 1013904242, 2773480762, 1359893119,
   2600822924, 528734635, 1541459225]

/-- Big-endian packing of bytes into 32-bit words. -/
def bytesToWords : List Nat → List Nat
  | a :: b :: c :: d :: rest =>
      (a * 16777216 + b * 65536 + c * 256 + d) :: bytesToWords rest
  | _ => []

/-- SHA-256 message-schedule sigma functions. -/
def smallSigma0 (x : Nat) : Nat := rotr x 7 ^^^ rotr x 18 ^^^ (x >>> 3)

/-- Second message-schedule sigma. -/
def smallSigma1 (x : Nat) : Nat := rotr x 17 ^^^ rotr x 19 ^^^ (x >>> 10)

/-- Compression sigma functions. -/
def bigSigma0 (x : Nat) : Nat := rotr x 2 ^^^ rotr x 13 ^^^ rotr x 22

/-- Second compression sigma. -/
def bigSigma1 (x : Nat) : Nat := rotr x 6 ^^^ rotr x 11 ^^^ rotr x 25

/-- SHA-256 choice function. -/
def shaCh (e f g : Nat) : Nat := (e &&& f) ^^^ ((0xFFFFFFFF ^^^ e) &&& g)

/-- SHA-256 majority function. -/
def shaMaj (a b c : Nat) : Nat := (a &&& b) ^^^ (a &&& c) ^^^ (b &&& c)

/-- Extend 16 schedule words to 64. -/
def extendWords : Nat → List Nat → List Nat
  | 0, ws => ws
  | n + 1, ws =>
      let L := ws.length
      let v := w32 (smallSigma1 (ws.getD (L - 2) 0) + ws.getD (L - 7) 0 +
        smallSigma0 (ws.getD (L - 15) 0) + ws.getD (L - 16) 0)
      extendWords n (ws ++ [v])

/-- One SHA-256 compression round on the 8-word state. -/
def shaRound (st : List Nat) (k w : Nat) : List Nat :=
  match st with
  | [a, b, c, d, e, f, g, h] =>
      let t1 := w32 (h + bigSigma1 e + shaCh e f g + k + w)
      let t2 := w32 (bigSigma0 a + shaMaj a b c)
      [w32 (t1 + t2), a, b, c, w32 (d + t1), e, f, g]
  | other => other

/-- Run the 64 rounds. -/
def shaRounds : List (Nat × Nat) → List Nat → List Nat
  | [], st => st
  | (k, w) :: rest, st => shaRounds rest (shaRound st k w)

/-- Process one 64-byte chunk. -/
def shaChunk (st : List Nat) (chunk : List Nat) : List Nat :=
  let ws := extendWords 48 (bytesToWords chunk)
  let st' := shaRounds (SHA_K.zip ws) st
  (st.zip st').map (fun p => w32 (p.1 + p.2))

/-- Split a byte list into 64-byte chunks (fuel-bounded). -/
def chunks64 : Nat → List Nat → List (List Nat)
  | 0, _ => []
  | _ + 1, [] => []
  | fuel + 1, bs => bs.take 64 :: chunks64 fuel (bs.drop 64)

/-- Big-endian 8-byte rendering of the message bit length. -/
def lenBytes (n : Nat) : List Nat :=
  [n / 72057594037927936 % 256, n / 281474976710656 % 256,
   n / 1099511627776 % 256, n / 4294967296 % 256, n / 16777216 % 256,
   n / 65536 % 256, n / 256 % 256, n % 256]

/-- SHA-256 padding. -/
def shaPad (msg : List Nat) : List Nat :=
  let z := (64 + 56 - (msg.length + 1) % 64) % 64
  msg ++ [0x80] ++ List.replicate z 0 ++ lenBytes (8 * msg.length)

/-- SHA-256 of a byte sequence, as the 8-word state. -/
def sha256Words (msg : List Nat) : List Nat :=
  let padded := shaPad msg
  (chunks64 (padded.length / 64 + 1) padded).foldl shaChunk shaInit

/-- Lowercase hex digit. -/
def hexChar (n : Nat) : Char :=
  if n < 10 then Char.ofNat (48 + n) else Char.ofNat (87 + n)

/-- Eight-nibble hex rendering of a 32-bit word. -/
def word8Hex (w : Nat) : List Char :=
  [hexChar (w / 268435456 % 16), hexChar (w / 16777216 % 16),
   hexChar (w / 1048576 % 16), hexChar (w / 65536 % 16),
   hexChar (w / 4096 % 16), hexChar (w / 256 % 16),
   hexChar (w / 16 % 16), hexChar (w % 16)]

/-- Model of `hashlib.sha256(data).hexdigest()`. -/
def sha256Hex (msg : List Nat) : String :=
  String.mk ((sha256Words msg).foldr (fun w acc => word8Hex w ++ acc) [])

/-- Fractional decimal digits of `rem/den` (terminates on the exact
decimals this module produces; fuel-bounded). -/
def fracDigits : Nat → Nat → Nat → List Char
  | 0, _, _ => []
  | fuel + 1, rem, den =>
      if rem = 0 then []
      else Char.ofNat (48 + rem * 10 / den) :: fracDigits fuel (rem * 10 % den) den

/-- Python `str(float)` on a non-negative exact decimal: integer part,
a dot, and the fractional digits (`"0"` when the value is integral). -/
def pyFloatStrNN (q : ℚ) : String :=
  let n := q.num.toNat
  let d := q.den
  let fr := fracDigits 40 (n % d) d
  toString (n / d) ++ "." ++ (if fr.isEmpty then "0" else String.mk fr)

/-- Python `str(float)` on the exact decimals this module produces. -/
def pyFloatStr (q : ℚ) : String :=
  if q < 0 then "-" ++ pyFloatStrNN (-q) else pyFloatStrNN q

/-- Model of `build_txn_hash` (src/trimport.py lines 191-193): join the parts with
`|` (absent fields as empty strings) and take the SHA-256 hex digest of the
UTF-8 bytes. -/
def build_txn_hash (parts : List (Option String)) : String :=
  sha256Hex (utf8Bytes (String.intercalate "|" (parts.map (fun p => p.getD ""))))

/-- Structure `ParsedTransaction` (src/trimport.py lines 83-94); `float` fields are
exact rationals. -/
structure ParsedTransaction where
  date : String
  txn_type : String
  isin : Option String
  instrument_name : Option String
  quantity : Option ℚ
  amount_in : Option ℚ
  amount_out : Option ℚ
  balance : Option ℚ
  source_pdf : String
  txn_hash : String
deriving DecidableEq, Repr

/-- The amount-count policy of `parse_transaction_line`
(src/trimport.py lines 258-278), as the `(amount_in, amount_out, balance)`
triple. -/
def assignAmounts (txn_type : String) (amounts : List ℚ) :
    Option ℚ × Option ℚ × Option ℚ :=
  if 3 ≤ amounts.length then
    (amounts.get? (amounts.length - 3), amounts.get? (amounts.length - 2),
     amounts.get? (amounts.length - 1))
  else
    match amounts with
    | [a, b] =>
        if txn_type = "buy" then (none, some a, some b)
        else if txn_type = "sell" then (some a, none, some b)
        else if a < 0 then (none, some |a|, some b)
        else (some a, none, some b)
    | _ => (none, none, amounts.get? (amounts.length - 1))

/-- Type resolution including the `handel` disambiguation
(src/trimport.py lines 242-252): a generic trade is resolved by a
case-insensitive `buy`/`sell` substring of the following description. -/
def classifyType (key description : String) : String :=
  if key = "handel" then
    if isSubListOf "buy".data (pyLower description).data then "buy"
    else if isSubListOf "sell".data (pyLower description).data then "sell"
    else "transfer"
  else TYPE_MAP key

/-- Steps 3-12 of `parse_transaction_line` (src/trimport.py lines 242-323)
once the date, the type keyword (with its end position in the remainder)
and a non-empty amount list are established. -/
def buildTxn (date_iso remainder key : String) (mEnd : Nat)
    (source_pdf : String) : ParsedTransaction :=
  let description := pyStrip (strDrop remainder mEnd)
  let txn_type := classifyType key description
  let amounts := extract_amounts remainder
  let assigned := assignAmounts txn_type amounts
  let description_only :=
    match reSearch matchAmountAt remainder with
    | some (s, _) => pyStrip (strSlice remainder mEnd s)
    | none => description
  let description_only := normalize_description description_only
  let isin_match := reSearch matchIsinAt description_only
  let isin_value := isin_match.map (fun p => strSlice description_only p.1 p.2)
  let iname :=
    match isin_match with
    | some (s, _) => pyStrip (strSlice description_only 0 s)
    | none => description_only
  let instrument_name := if iname = "" then none else some iname
  let quantity := extract_quantity description_only isin_match
  let txn_hash := build_txn_hash
    [some date_iso, some txn_type, isin_value, instrument_name,
     quantity.map pyFloatStr, assigned.1.map pyFloatStr,
     assigned.2.1.map pyFloatStr, assigned.2.2.map pyFloatStr,
     some source_pdf]
  ParsedTransaction.mk date_iso txn_type isin_value instrument_name quantity
    assigned.1 assigned.2.1 assigned.2.2 source_pdf txn_hash

/-- Model of `parse_transaction_line` (src/trimport.py lines 225-323).
`Except.error ()` is the uncaught `ValueError` escaping from
`extract_date`; `.ok none` is the explicit "not a transaction" result. -/
def parse_transaction_line (line source_pdf : String) :
    Except Unit (Option ParsedTransaction) :=
  match extract_date line with
  | .error e => .error e
  | .ok (none, _) => .ok none
  | .ok (some date_iso, remainder) =>
      match findTypeMatch (pyLower remainder) with
      | none => .ok none
      | some (key, mEnd) =>
          if (extract_amounts remainder).isEmpty then .ok none
          else .ok (some (buildTxn date_iso remainder key mEnd source_pdf))

/-- One step of the Line Reassembler (src/trimport.py lines 215-221):
append the line to the pending buffer, join with single spaces, try the
parser; on success emit and clear, on failure keep the buffer. -/
def reassembleStep (src : String)
    (st : List String × List ParsedTransaction) (line : String) :
    Except Unit (List String × List ParsedTransaction) :=
  let buffer := st.1 ++ [line]
  match parse_transaction_line (String.intercalate " " buffer) src with
  | .error e => .error e
  | .ok (some t) => .ok ([], st.2 ++ [t])
  | .ok none => .ok (buffer, st.2)

/-- The reassembly loop over the remaining lines, with the current buffer
and the transactions emitted so far. -/
def runReassemble (src : String) :
    List String → List String → List ParsedTransaction →
    Except Unit (List ParsedTransaction)
  | [], _, acc => .ok acc
  | l :: rest, buf, acc =>
      match reassembleStep src (buf, acc) l with
      | .error e => .error e
      | .ok (buf', acc') => runReassemble src rest buf' acc'

/-- Model of `parse_transaction_lines` (src/trimport.py lines 212-222). -/
def parse_transaction_lines (lines : List String) (src : String) :
    Except Unit (List ParsedTransaction) :=
  runReassemble src lines [] []

/-- One line of the page text, as prepared on src/trimport.py line 205:
stripped, with empty lines removed. -/
def cleanLines (text : String) : List String :=
  ((pySplitlines text).map pyStrip).filter (fun l => l ≠ "")

/-- A line containing every header token case-insensitively
(src/trimport.py line 199). -/
def isHeaderLine (l : String) : Bool :=
  HEADER_TOKENS.all (fun tok => isSubListOf tok.data (pyUpper l).data)

/-- Index scan of `find_header_idx` (src/trimport.py lines 196-201). -/
def findHeaderAux : List String → Nat → Option Nat
  | [], _ => none
  | l :: rest, i =>
      if isHeaderLine l then some i else findHeaderAux rest (i + 1)

/-- Model of `find_header_idx`: index of the first line containing all header
tokens, or `none`. -/
def find_header_idx (lines : List String) : Option Nat :=
  findHeaderAux lines 0

/-- Model of `extract_transaction_lines_from_text` (src/trimport.py lines 204-209). -/
def extract_transaction_lines_from_text (text : String) :
    List String × Bool :=
  let lines := cleanLines text
  match find_header_idx lines with
  | none => ([], false)
  | some i => (lines.drop (i + 1), true)

/-- The data lines one page contributes to the document-wide stream
(src/trimport.py lines 344-351): none when its header is not found. -/
def pageContribution (text : String) : List String :=
  let lines := cleanLines text
  match find_header_idx lines with
  | none => []
  | some i => lines.drop (i + 1)

/-- Stream `all_lines` accumulated over the pages of a document
(src/trimport.py lines 335-351, with the page texts given). -/
def gatherPdfLines (pages : List String) : List String :=
  pages.foldl (fun acc p => acc ++ pageContribution p) []

/-- The ordered transactions `parse_pdf` produces from the page texts
(src/trimport.py lines 356-365). -/
def pdfTransactions (pages : List String) (src : String) :
    Except Unit (List ParsedTransaction) :=
  parse_transaction_lines (gatherPdfLines pages) src

/-- One row of the `transactions` table (src/trimport.py lines 105-120),
with the columns written by `insert_transactions`. -/
structure TxnRow where
  document_id : Nat
  date : String
  txn_type : String
  isin : Option String
  instrument_name : Option String
  quantity : Option ℚ
  amount_in : Option ℚ
  amount_out : Option ℚ
  balance : Option ℚ
  source_pdf : String
  txn_hash : String
  created_at : String
deriving DecidableEq, Repr

/-- The row `insert_transactions` writes for one transaction. -/
def rowOf (doc_id : Nat) (now : String) (t : ParsedTransaction) : TxnRow :=
  TxnRow.mk doc_id t.date t.txn_type t.isin t.instrument_name t.quantity
    t.amount_in t.amount_out t.balance t.source_pdf t.txn_hash now

/-- Semantics of `INSERT OR IGNORE` under the `txn_hash UNIQUE` constraint
(src/trimport.py line 117 with lines 393-427): a row whose fingerprint is
already stored is silently skipped. -/
def insertOrIgnore (db : List TxnRow) (r : TxnRow) : List TxnRow :=
  if db.any (fun row => row.txn_hash == r.txn_hash) then db else db ++ [r]

/-- Model of `insert_transactions` (src/trimport.py lines 387-429): the new table
contents and `conn.total_changes` (the connection is fresh, so this is the
number of rows actually inserted by this call). -/
def insert_transactions (db : List TxnRow) (doc_id : Nat) (now : String)
    (txns : List ParsedTransaction) : List TxnRow × Nat :=
  if txns.isEmpty then (db, 0)
  else
    let db' := txns.foldl (fun acc t => insertOrIgnore acc (rowOf doc_id now t)) db
    (db', db'.length - db.length)

/-- The multiset of stored fingerprints. -/
def dbHashes (db : List TxnRow) : List String := db.map (fun r => r.txn_hash)

/-- Inversion of a successful parse: a `ParsedTransaction` arises exactly
from an extracted date, a matched type keyword and a non-empty amount
list, and is the record `buildTxn` constructs from them. -/
theorem parse_ok_some_inv (line src : String) (t : ParsedTransaction)
    (h : parse_transaction_line line src = .ok (some t)) :
    ∃ d r key mEnd, extract_date line = .ok (some d, r)
      ∧ findTypeMatch (pyLower r) = some (key, mEnd)
      ∧ extract_amounts r ≠ []
      ∧ t = buildTxn d r key mEnd src := by
  unfold parse_transaction_line at h
  split at h
  · exact absurd h (by simp)
  · exact absurd h (by simp)
  · rename_i d0 r0 hdate
    split at h
    · exact absurd h (by simp)
    · rename_i key0 mEnd0 hkey
      split at h
      · exact absurd h (by simp)
      · rename_i hamt
        simp only [Except.ok.injEq, Option.some.injEq] at h
        refine ⟨d0, r0, key0, mEnd0, hdate, hkey, ?_, h.symm⟩
        simpa [List.isEmpty_iff] using hamt

/-- A successful parse in the other direction: the three mandatory pieces
force success. -/
theorem parse_ok_some_intro (line src d r key : String) (mEnd : Nat)
    (hd : extract_date line = .ok (some d, r))
    (hk : findTypeMatch (pyLower r) = some (key, mEnd))
    (ha : extract_amounts r ≠ []) :
    parse_transaction_line line src = .ok (some (buildTxn d r key mEnd src)) := by
  simp only [parse_transaction_line, hd, hk]
  simp [List.isEmpty_iff, ha]

/-- The key a successful keyword search returns is one of the searched
keys. -/
theorem findTypeMatchAux_mem (ks : List String) (s k : String) (e : Nat)
    (h : findTypeMatchAux ks s = some (k, e)) : k ∈ ks := by
  induction ks with
  | nil => simp [findTypeMatchAux] at h
  | cons a rest ih =>
      unfold findTypeMatchAux at h
      cases hs : searchTypeKey a s with
      | some p =>
          obtain ⟨p1, p2⟩ := p
          rw [hs] at h
          simp only [Option.some.injEq, Prod.mk.injEq] at h
          exact h.1 ▸ List.mem_cons_self a rest
      | none =>
          rw [hs] at h
          exact List.mem_cons_of_mem _ (ih h)

/-- Three or more amounts: the last three, in order. -/
theorem assignAmounts_ge3 (ty : String) (A : List ℚ) (h3 : 3 ≤ A.length) :
    assignAmounts ty A =
      (A.get? (A.length - 3), A.get? (A.length - 2), A.get? (A.length - 1)) := by
  unfold assignAmounts
  rw [if_pos h3]

/-- Exactly two amounts: routed by type, then by sign. -/
theorem assignAmounts_two (ty : String) (a b : ℚ) :
    assignAmounts ty [a, b] =
      (if ty = "buy" then ((none : Option ℚ), some a, some b)
       else if ty = "sell" then (some a, none, some b)
       else if a < 0 then (none, some |a|, some b)
       else (some a, none, some b)) := by
  unfold assignAmounts
  rw [if_neg (by simp)]

/-- Exactly one amount: balance only. -/
theorem assignAmounts_one (ty : String) (a : ℚ) :
    assignAmounts ty [a] = (none, none, some a) := by
  unfold assignAmounts
  rw [if_neg (by simp)]
  rfl

/-- The monetary fields of a built transaction are exactly the
`assignAmounts` triple over the classified type, and its type is the
classified type. -/
theorem buildTxn_fields (d r key : String) (mEnd : Nat) (src : String) :
    (buildTxn d r key mEnd src).txn_type
        = classifyType key (pyStrip (strDrop r mEnd))
    ∧ (buildTxn d r key mEnd src).amount_in
        = (assignAmounts (classifyType key (pyStrip (strDrop r mEnd)))
            (extract_amounts r)).1
    ∧ (buildTxn d r key mEnd src).amount_out
        = (assignAmounts (classifyType key (pyStrip (strDrop r mEnd)))
            (extract_amounts r)).2.1
    ∧ (buildTxn d r key mEnd src).balance
        = (assignAmounts (classifyType key (pyStrip (strDrop r mEnd)))
            (extract_amounts r)).2.2
    ∧ (buildTxn d r key mEnd src).date = d :=
  ⟨rfl, rfl, rfl, rfl, rfl⟩

/-- Claim C1: on every successfully parsed combined line, the amount-count
policy holds over the amounts extracted from the post-date remainder `r`:
with three or more amounts the last three go, in order, to `amount_in`,
`amount_out` and `balance`; with exactly two the first is the transaction
amount (buy→`amount_out`, sell→`amount_in`, otherwise by sign with absolute
value when negative) and the second is the balance; with exactly one, only
the balance is set. -/
theorem claim_c1_amount_count_policy (line src : String)
    (t : ParsedTransaction) (d r : String)
    (hd : extract_date line = .ok (some d, r))
    (hp : parse_transaction_line line src = .ok (some t)) :
    (3 ≤ (extract_amounts r).length →
        t.amount_in = (extract_amounts r).get? ((extract_amounts r).length - 3)
      ∧ t.amount_out = (extract_amounts r).get? ((extract_amounts r).length - 2)
      ∧ t.balance = (extract_amounts r).get? ((extract_amounts r).length - 1))
    ∧ (∀ a b, extract_amounts r = [a, b] →
        t.balance = some b
      ∧ (t.txn_type = "buy" → t.amount_out = some a ∧ t.amount_in = none)
      ∧ (t.txn_type = "sell" → t.amount_in = some a ∧ t.amount_out = none)
      ∧ (t.txn_type ≠ "buy" → t.txn_type ≠ "sell" → a < 0 →
            t.amount_out = some |a| ∧ t.amount_in = none)
      ∧ (t.txn_type ≠ "buy" → t.txn_type ≠ "sell" → 0 ≤ a →
            t.amount_in = some a ∧ t.amount_out = none))
    ∧ (∀ a, extract_amounts r = [a] →
        t.balance = some a ∧ t.amount_in = none ∧ t.amount_out = none) := by
  obtain ⟨d', r', key, mEnd, hd', hk', _, ht⟩ := parse_ok_some_inv line src t hp
  rw [hd] at hd'
  simp only [Except.ok.injEq, Prod.mk.injEq, Option.some.injEq] at hd'
  obtain ⟨hdd, hrr⟩ := hd'
  subst hdd
  subst hrr
  obtain ⟨hty, hin, hout, hbal, -⟩ := buildTxn_fields d r key mEnd src
  rw [← ht] at hty hin hout hbal
  set ty := classifyType key (pyStrip (strDrop r mEnd)) with hty_def
  refine ⟨?_, ?_, ?_⟩
  · intro h3
    rw [hin, hout, hbal, assignAmounts_ge3 ty _ h3]
    exact ⟨rfl, rfl, rfl⟩
  · intro a b hab
    rw [hab] at hin hout hbal
    rw [assignAmounts_two] at hin hout hbal
    refine ⟨?_, ?_, ?_, ?_, ?_⟩
    · rw [hbal]
      split_ifs <;> rfl
    · intro hbuy
      rw [hty] at hbuy
      rw [hin, hout, if_pos hbuy]
      exact ⟨rfl, rfl⟩
    · intro hsell
      rw [hty] at hsell
      have hnotbuy : ¬ ty = "buy" := by
        rw [hsell]
        decide
      rw [hin, hout, if_neg hnotbuy, if_pos hsell]
      exact ⟨rfl, rfl⟩
    · intro hnb hns hneg
      rw [hty] at hnb hns
      rw [hin, hout, if_neg hnb, if_neg hns, if_pos hneg]
      exact ⟨rfl, rfl⟩
    · intro hnb hns hpos
      have hnneg : ¬ a < 0 := not_lt.mpr hpos
      rw [hty] at hnb hns
      rw [hin, hout, if_neg hnb, if_neg hns, if_neg hnneg]
      exact ⟨rfl, rfl⟩
  · intro a ha
    rw [ha] at hin hout hbal
    rw [assignAmounts_one] at hin hout hbal
    exact ⟨hbal, hin, hout⟩

/-- Witness for C1: a concrete two-amount sell line routes the first
amount to `amount_in` and the second to the balance. -/
theorem claim_c1_witness :
    ∃ t, parse_transaction_line "02.02.2024 Verkauf 7,00 9,00" "w1"
        = .ok (some t)
      ∧ t.amount_in = some 7 ∧ t.amount_out = none ∧ t.balance = some 9 := by
  refine ⟨_, rfl, ?_⟩
  have h := claim_c1_amount_count_policy "02.02.2024 Verkauf 7,00 9,00" "w1" _
    "2024-02-02" "Verkauf 7,00 9,00" rfl rfl
  obtain ⟨hbal, -, hsell, -, -⟩ := h.2.1 7 9 (by decide)
  have hs := hsell rfl
  exact ⟨hs.1, hs.2, hbal⟩

/-- The balance component of the assignment is always the last amount. -/
theorem assignAmounts_balance (ty : String) (A : List ℚ) (h : A ≠ []) :
    (assignAmounts ty A).2.2 = A.getLast? := by
  by_cases h3 : 3 ≤ A.length
  · rw [assignAmounts_ge3 ty A h3]
    dsimp only
    rw [List.get?_eq_getElem?, List.getLast?_eq_getElem?]
  · rcases A with - | ⟨a, A1⟩
    · exact absurd rfl h
    rcases A1 with - | ⟨b, A2⟩
    · rw [assignAmounts_one]
      rfl
    rcases A2 with - | ⟨c, A3⟩
    · rw [assignAmounts_two]
      split_ifs <;> rfl
    · refine absurd ?_ h3
      simp only [List.length_cons]
      omega

/-- Claim C10: every successful parse carries a present balance, namely the
last amount extracted from the post-date remainder, in every amount-count
branch. -/
theorem claim_c10_balance_present (line src : String) (t : ParsedTransaction)
    (d r : String)
    (hd : extract_date line = .ok (some d, r))
    (hp : parse_transaction_line line src = .ok (some t)) :
    ∃ b, t.balance = some b ∧ (extract_amounts r).getLast? = some b := by
  obtain ⟨d', r', key, mEnd, hd', hk', ha', ht⟩ := parse_ok_some_inv line src t hp
  rw [hd] at hd'
  simp only [Except.ok.injEq, Prod.mk.injEq, Option.some.injEq] at hd'
  obtain ⟨hdd, hrr⟩ := hd'
  subst hdd
  subst hrr
  obtain ⟨-, -, -, hbal, -⟩ := buildTxn_fields d r key mEnd src
  rw [← ht] at hbal
  rw [assignAmounts_balance _ _ ha'] at hbal
  obtain ⟨b, hb⟩ := Option.isSome_iff_exists.mp
    (List.getLast?_isSome.mpr ha')
  exact ⟨b, hb ▸ hbal, hb⟩

/-- Witness for C10: a one-amount transfer line stores that amount as the
balance. -/
theorem claim_c10_witness :
    ∃ t, parse_transaction_line "03.02.2024 Dividende 4,00" "w10"
        = .ok (some t) ∧ t.balance = some 4 := by
  refine ⟨_, rfl, ?_⟩
  obtain ⟨b, hb, hlast⟩ := claim_c10_balance_present
    "03.02.2024 Dividende 4,00" "w10" _ "2024-02-03" "Dividende 4,00" rfl rfl
  have h4 : (extract_amounts "Dividende 4,00").getLast? = some (4 : ℚ) := by
    decide
  rw [h4] at hlast
  simp only [Option.some.injEq] at hlast
  rw [hb, hlast]

/-- Claim C8: the classified type of every successful parse is one of
`buy`, `sell`, `transfer` (never the generic `trade`), and for the generic
`handel` keyword it is resolved by a case-insensitive `buy`/`sell`
substring of the description following the keyword, defaulting to
`transfer`. -/
theorem claim_c8_type_resolution (line src : String) (t : ParsedTransaction)
    (d r key : String) (mEnd : Nat)
    (hd : extract_date line = .ok (some d, r))
    (hk : findTypeMatch (pyLower r) = some (key, mEnd))
    (hp : parse_transaction_line line src = .ok (some t)) :
    (t.txn_type = "buy" ∨ t.txn_type = "sell" ∨ t.txn_type = "transfer")
    ∧ (key = "handel" →
        t.txn_type =
          (if isSubListOf "buy".data (pyLower (pyStrip (strDrop r mEnd))).data
           then "buy"
           else if isSubListOf "sell".data
               (pyLower (pyStrip (strDrop r mEnd))).data
           then "sell" else "transfer")) := by
  obtain ⟨d', r', key', mEnd', hd', hk', ha', ht⟩ := parse_ok_some_inv line src t hp
  rw [hd] at hd'
  simp only [Except.ok.injEq, Prod.mk.injEq, Option.some.injEq] at hd'
  obtain ⟨hdd, hrr⟩ := hd'
  subst hdd
  subst hrr
  rw [hk] at hk'
  simp only [Option.some.injEq, Prod.mk.injEq] at hk'
  obtain ⟨hkk, hme⟩ := hk'
  subst hkk
  subst hme
  obtain ⟨hty, -, -, -, -⟩ := buildTxn_fields d r key mEnd src
  rw [← ht] at hty
  have hmem : key ∈ TYPE_KEYS := findTypeMatchAux_mem TYPE_KEYS (pyLower r)
    key mEnd hk
  constructor
  · rw [hty]
    simp only [TYPE_KEYS, List.mem_cons, List.not_mem_nil, or_false] at hmem
    rcases hmem with h | h | h | h | h | h | h | h | h | h <;> subst h
    · right; right; rfl
    · right; right; rfl
    · right; right; rfl
    · right; right; rfl
    · right; right; rfl
    · right; left; rfl
    · right; right; rfl
    · right; right; rfl
    · unfold classifyType
      rw [if_pos rfl]
      split_ifs
      · left; rfl
      · right; left; rfl
      · right; right; rfl
    · left; rfl
  · intro hh
    rw [hty]
    unfold classifyType
    rw [if_pos hh]

/-- Witness for C8: a generic `Handel` line whose description contains
`Buy` resolves to type `buy`. -/
theorem claim_c8_witness :
    ∃ t, parse_transaction_line "05.03.2024 Handel Buy Foo 1,00" "w8"
        = .ok (some t) ∧ t.txn_type = "buy" := by
  refine ⟨_, rfl, ?_⟩
  have h := (claim_c8_type_resolution "05.03.2024 Handel Buy Foo 1,00" "w8" _
    "2024-03-05" "Handel Buy Foo 1,00" "handel" 6 rfl rfl rfl).2 rfl
  rw [h]
  decide

/-- Counterexample to C3 as stated: on a line whose last three amounts are
`-1,00 -2,00 3,00` the parser succeeds with `amount_in = -1 < 0` and
`amount_out = -2 < 0`, so present `amount_in`/`amount_out` are not always
non-negative in the three-or-more branch. -/
theorem claim_c3_counterexample :
    ∃ t, parse_transaction_line "01.02.2024 Kauf X -1,00 -2,00 3,00" "cx3"
        = .ok (some t)
      ∧ t.amount_in = some (-1) ∧ t.amount_out = some (-2)
      ∧ ¬((∀ q, t.amount_in = some q → 0 ≤ q)
          ∧ (∀ q, t.amount_out = some q → 0 ≤ q)) := by
  refine ⟨_, rfl, by decide, by decide, ?_⟩
  intro hcontra
  have := hcontra.1 (-1) (by decide)
  exact absurd this (by decide)

/-- Claim C3 as amended: non-negativity of present `amount_in` /
`amount_out` holds in the sign-routed branch, i.e. when exactly two amounts
are extracted and the classified type is neither `buy` nor `sell`.  (In the
three-or-more branch and in the buy/sell two-amount routes the parsed,
possibly negative, amounts are stored as-is.) -/
theorem claim_c3_amended (line src : String) (t : ParsedTransaction)
    (d r : String)
    (hd : extract_date line = .ok (some d, r))
    (hp : parse_transaction_line line src = .ok (some t))
    (hlen : (extract_amounts r).length = 2)
    (hnb : t.txn_type ≠ "buy") (hns : t.txn_type ≠ "sell") :
    (∀ q, t.amount_in = some q → 0 ≤ q)
    ∧ (∀ q, t.amount_out = some q → 0 ≤ q) := by
  obtain ⟨d', r', key, mEnd, hd', hk', ha', ht⟩ := parse_ok_some_inv line src t hp
  rw [hd] at hd'
  simp only [Except.ok.injEq, Prod.mk.injEq, Option.some.injEq] at hd'
  obtain ⟨hdd, hrr⟩ := hd'
  subst hdd
  subst hrr
  obtain ⟨a, b, hab⟩ := List.length_eq_two.mp hlen
  obtain ⟨hty, hin, hout, -, -⟩ := buildTxn_fields d r key mEnd src
  rw [← ht] at hty hin hout
  rw [hab, assignAmounts_two] at hin hout
  rw [hty] at hnb hns
  rw [if_neg hnb, if_neg hns] at hin hout
  by_cases hneg : a < 0
  · rw [if_pos hneg] at hin hout
    dsimp only at hin hout
    constructor
    · intro q hq
      rw [hin] at hq
      cases hq
    · intro q hq
      rw [hout] at hq
      simp only [Option.some.injEq] at hq
      rw [← hq]
      exact abs_nonneg a
  · rw [if_neg hneg] at hin hout
    dsimp only at hin hout
    constructor
    · intro q hq
      rw [hin] at hq
      simp only [Option.some.injEq] at hq
      rw [← hq]
      exact not_lt.mp hneg
    · intro q hq
      rw [hout] at hq
      cases hq

/-- Witness for the amended C3: a two-amount transfer line with a negative
transaction amount yields non-negative present amounts. -/
theorem claim_c3_witness :
    ∃ t, parse_transaction_line "01.02.2024 Einzahlung -5,00 10,00" "w3"
        = .ok (some t)
      ∧ (∀ q, t.amount_in = some q → 0 ≤ q)
      ∧ (∀ q, t.amount_out = some q → 0 ≤ q) := by
  refine ⟨_, rfl, ?_⟩
  exact claim_c3_amended "01.02.2024 Einzahlung -5,00 10,00" "w3" _
    "2024-02-01" "Einzahlung -5,00 10,00" rfl rfl (by decide) (by decide)
    (by decide)

/-- Claim C2, settled against the code: `parse_transaction_line` is not
total.  On the line `30.02.2024` the numeric date pattern matches but
February 30 is calendar-invalid, so `datetime.strptime` raises a
`ValueError` that escapes (modelled as `Except.error ()`); the function
neither returns a transaction nor the "not a transaction" result, contrary
to the specified never-raise contract. -/
theorem claim_c2_exception_on_invalid_date :
    parse_transaction_line "30.02.2024" "" = .error ()
    ∧ parse_transaction_line "30.02.2024" "" ≠ .ok none := by
  refine ⟨rfl, ?_⟩
  intro h
  have h0 : parse_transaction_line "30.02.2024" "" = .error () := rfl
  rw [h0] at h
  exact Except.noConfusion h

/-- Counterexample to C4 as stated: on `31.04.2024 Kauf 1,00` (April 31 is
calendar-invalid) the parser raises instead of returning the
"not a transaction" result, although the line has no extractable date in
the claim's sense. -/
theorem claim_c4_counterexample :
    parse_transaction_line "31.04.2024 Kauf 1,00" "cx4" = .error ()
    ∧ parse_transaction_line "31.04.2024 Kauf 1,00" "cx4" ≠ .ok none
    ∧ ¬∃ t, parse_transaction_line "31.04.2024 Kauf 1,00" "cx4"
        = .ok (some t) := by
  have h0 : parse_transaction_line "31.04.2024 Kauf 1,00" "cx4"
      = .error () := rfl
  refine ⟨h0, ?_, ?_⟩
  · intro h
    rw [h0] at h
    exact Except.noConfusion h
  · rintro ⟨t, ht⟩
    rw [h0] at ht
    exact Except.noConfusion ht

/-- Claim C4 as amended: on every combined line on which date extraction
does not raise, the parser returns a transaction iff the date was found,
a type keyword matches (whole word, case-insensitive) in the post-date
remainder, and at least one amount is extracted from that remainder; when
any of the three is absent it returns the "not a transaction" result.
(On a line whose matched date span is calendar-invalid an exception
escapes instead, see the counterexample.) -/
theorem claim_c4_amended (line src : String) (p : Option String × String)
    (hd : extract_date line = .ok p) :
    ((∃ t, parse_transaction_line line src = .ok (some t)) ↔
      (p.1 ≠ none ∧ findTypeMatch (pyLower p.2) ≠ none
        ∧ extract_amounts p.2 ≠ []))
    ∧ (¬(p.1 ≠ none ∧ findTypeMatch (pyLower p.2) ≠ none
        ∧ extract_amounts p.2 ≠ []) →
      parse_transaction_line line src = .ok none) := by
  obtain ⟨dq, r⟩ := p
  dsimp only
  constructor
  · constructor
    · rintro ⟨t, ht⟩
      obtain ⟨d', r', key, mEnd, hd', hk', ha', -⟩ :=
        parse_ok_some_inv line src t ht
      rw [hd] at hd'
      simp only [Except.ok.injEq, Prod.mk.injEq] at hd'
      obtain ⟨h1, h2⟩ := hd'
      subst h2
      refine ⟨by simp [h1], by simp [hk'], ha'⟩
    · rintro ⟨h1, h2, h3⟩
      cases hq : dq with
      | none => exact absurd hq h1
      | some d =>
          cases hk : findTypeMatch (pyLower r) with
          | none => exact absurd hk h2
          | some km =>
              obtain ⟨key, mEnd⟩ := km
              exact ⟨_, parse_ok_some_intro line src d r key mEnd
                (hq ▸ hd) hk h3⟩
  · intro hn
    cases hq : dq with
    | none =>
        rw [hq] at hd
        simp [parse_transaction_line, hd]
    | some d =>
        rw [hq] at hd
        cases hk : findTypeMatch (pyLower r) with
        | none => simp [parse_transaction_line, hd, hk]
        | some km =>
            obtain ⟨key, mEnd⟩ := km
            have hae : extract_amounts r = [] := by
              by_contra hne
              exact hn ⟨by simp [hq], by simp [hk], hne⟩
            simp [parse_transaction_line, hd, hk, hae]

/-- Witness for the amended C4: a line with a valid date, the keyword
`Kauf` and one amount parses successfully. -/
theorem claim_c4_witness :
    ∃ t, parse_transaction_line "01.02.2024 Kauf 1,00" "w4"
        = .ok (some t) :=
  ((claim_c4_amended "01.02.2024 Kauf 1,00" "w4"
    (some "2024-02-01", "Kauf 1,00") rfl).1).mpr
    ⟨by decide, by decide, by decide⟩

/-- Claim C7: the specification's example line parses to the stated date,
type, ISIN, instrument name, quantity, money-out amount and balance. -/
theorem claim_c7_example_line :
    ∃ t, parse_transaction_line
        "01.02.2024 Kauf Example AG DE0001234567 10 0,00 1.234,56 5.000,00"
        "sample.pdf" = .ok (some t)
      ∧ t.date = "2024-02-01" ∧ t.txn_type = "buy"
      ∧ t.isin = some "DE0001234567"
      ∧ t.instrument_name = some "Example AG"
      ∧ t.quantity = some 10
      ∧ t.amount_out = some (123456 / 100 : ℚ)
      ∧ t.balance = some 5000 := by
  refine ⟨_, rfl, rfl, rfl, rfl, rfl, by decide, ?_, by decide⟩
  have h : (123456 / 100 : ℚ) = mkRat 123456 100 := by
    rw [Rat.mkRat_eq_div]
    norm_num
  rw [h]
  decide

/-- Claim C5: the Line Reassembler appends each incoming line to the
pending buffer, joins the buffer with single spaces, and hands it to the
parser; on success it emits the transaction at the end of the output (so
emission order is resolution order) and clears the buffer immediately and
unconditionally; on failure the buffer is left intact; and the loop
processes lines in order with exactly this step. -/
theorem claim_c5_reassembler (src : String) (buffer : List String)
    (acc : List ParsedTransaction) (line : String) :
    (∀ t, parse_transaction_line (String.intercalate " " (buffer ++ [line]))
          src = .ok (some t) →
      reassembleStep src (buffer, acc) line = .ok ([], acc ++ [t]))
    ∧ (parse_transaction_line (String.intercalate " " (buffer ++ [line]))
          src = .ok none →
      reassembleStep src (buffer, acc) line = .ok (buffer ++ [line], acc))
    ∧ (∀ rest, runReassemble src (line :: rest) buffer acc =
        match reassembleStep src (buffer, acc) line with
        | .error e => .error e
        | .ok st => runReassemble src rest st.1 st.2)
    ∧ (∀ lines, parse_transaction_lines lines src
        = runReassemble src lines [] []) := by
  refine ⟨?_, ?_, ?_, fun _ => rfl⟩
  · intro t ht
    simp only [reassembleStep]
    rw [ht]
  · intro ht
    simp only [reassembleStep]
    rw [ht]
  · intro rest
    cases h : reassembleStep src (buffer, acc) line with
    | error e => simp only [runReassemble, h]
    | ok st =>
        obtain ⟨b1, a1⟩ := st
        simp only [runReassemble, h]

/-- Witness for C5: a transaction split across two physical lines resolves
on the second line, emits in order, and leaves the buffer empty. -/
theorem claim_c5_witness :
    ∃ t, parse_transaction_line "01.02.2024 Kauf Example AG 1,00 2,00" "w5"
        = .ok (some t)
      ∧ reassembleStep "w5" (["01.02.2024 Kauf Example"], []) "AG 1,00 2,00"
        = .ok ([], [t]) := by
  refine ⟨_, rfl, ?_⟩
  have h := (claim_c5_reassembler "w5" ["01.02.2024 Kauf Example"] []
    "AG 1,00 2,00").1 _ rfl
  simpa using h

/-- A successful header scan returns the first matching index (stated with
the running start index `n` of the scan). -/
theorem findHeaderAux_some (lines : List String) :
    ∀ n i, findHeaderAux lines n = some i →
      n ≤ i ∧ i - n < lines.length
      ∧ isHeaderLine (lines.getD (i - n) "") = true
      ∧ ∀ j, j < i - n → isHeaderLine (lines.getD j "") = false := by
  induction lines with
  | nil => intro n i h; simp [findHeaderAux] at h
  | cons l rest ih =>
      intro n i h
      unfold findHeaderAux at h
      by_cases hl : isHeaderLine l
      · rw [if_pos hl] at h
        simp only [Option.some.injEq] at h
        subst h
        refine ⟨le_refl n, by simp, by simpa [Nat.sub_self] using hl, ?_⟩
        intro j hj
        exact absurd hj (by omega)
      · rw [if_neg hl] at h
        obtain ⟨h1, h2, h3, h4⟩ := ih (n + 1) i h
        refine ⟨by omega, by simp only [List.length_cons]; omega, ?_, ?_⟩
        · have he : i - n = (i - (n + 1)) + 1 := by omega
          rw [he]
          simpa using h3
        · intro j hj
          cases j with
          | zero => simpa using hl
          | succ k =>
              have hk : k < i - (n + 1) := by omega
              simpa using h4 k hk

/-- A failed header scan means no line matches. -/
theorem findHeaderAux_none (lines : List String) :
    ∀ n, findHeaderAux lines n = none →
      ∀ j, j < lines.length → isHeaderLine (lines.getD j "") = false := by
  induction lines with
  | nil => intro n _ j hj; simp at hj
  | cons l rest ih =>
      intro n h j hj
      unfold findHeaderAux at h
      by_cases hl : isHeaderLine l
      · rw [if_pos hl] at h
        exact absurd h (by simp)
      · rw [if_neg hl] at h
        cases j with
        | zero => simpa using hl
        | succ k => simpa using ih (n + 1) h k (by simpa using hj)

/-- Claim C6: the Table Locator scans the page's non-empty trimmed lines in
order; at the first line containing all case-insensitive header tokens it
returns exactly the following lines as data lines with header-found true;
with no such line it returns zero data lines with header-found false, and
such a page leaves the transactions produced from the other pages' data
lines unchanged. -/
theorem claim_c6_table_locator (text : String) :
    (∀ i, find_header_idx (cleanLines text) = some i →
      extract_transaction_lines_from_text text
          = ((cleanLines text).drop (i + 1), true)
      ∧ isHeaderLine ((cleanLines text).getD i "") = true
      ∧ ∀ j, j < i → isHeaderLine ((cleanLines text).getD j "") = false)
    ∧ (find_header_idx (cleanLines text) = none →
      extract_transaction_lines_from_text text = ([], false)
      ∧ ∀ j, j < (cleanLines text).length →
          isHeaderLine ((cleanLines text).getD j "") = false)
    ∧ (∀ pre post src, find_header_idx (cleanLines text) = none →
      pdfTransactions (pre ++ text :: post) src
        = pdfTransactions (pre ++ post) src) := by
  refine ⟨?_, ?_, ?_⟩
  · intro i h
    obtain ⟨h1, h2, h3, h4⟩ := findHeaderAux_some (cleanLines text) 0 i h
    refine ⟨?_, by simpa using h3, fun j hj => by simpa using h4 j (by omega)⟩
    simp only [extract_transaction_lines_from_text, h]
  · intro h
    exact ⟨by simp only [extract_transaction_lines_from_text, h],
      findHeaderAux_none (cleanLines text) 0 h⟩
  · intro pre post src h
    have hc : pageContribution text = [] := by
      simp only [pageContribution, h]
    unfold pdfTransactions
    unfold gatherPdfLines
    rw [List.foldl_append, List.foldl_append]
    simp [List.foldl_cons, hc]

/-- Witness for C6: a concrete page whose second line is the header row
yields exactly the lines after it. -/
theorem claim_c6_witness :
    extract_transaction_lines_from_text
      "Kopf\nDATUM TYP BESCHREIBUNG ZAHLUNGSEINGANG ZAHLUNGSAUSGANG SALDO\nZeile A"
      = (["Zeile A"], true) :=
  ((claim_c6_table_locator
    "Kopf\nDATUM TYP BESCHREIBUNG ZAHLUNGSEINGANG ZAHLUNGSAUSGANG SALDO\nZeile A").1
    1 rfl).1

/-- The inserted row's fingerprint is stored after `insertOrIgnore`. -/
theorem insertOrIgnore_mem (db : List TxnRow) (r : TxnRow) :
    r.txn_hash ∈ dbHashes (insertOrIgnore db r) := by
  unfold insertOrIgnore
  split_ifs with h
  · obtain ⟨row, hrow, heq⟩ := List.any_eq_true.mp h
    simp only [beq_iff_eq] at heq
    exact heq ▸ List.mem_map_of_mem _ hrow
  · simp [dbHashes]

/-- Lemma: `insertOrIgnore` never removes stored fingerprints. -/
theorem insertOrIgnore_hashes_mono (db : List TxnRow) (r : TxnRow) :
    dbHashes db ⊆ dbHashes (insertOrIgnore db r) := by
  unfold insertOrIgnore
  split_ifs with h
  · exact fun x hx => hx
  · intro x hx
    simp only [dbHashes, List.map_append] at hx ⊢
    exact List.mem_append_left _ hx

/-- A row whose fingerprint is already stored is silently skipped. -/
theorem insertOrIgnore_skip (db : List TxnRow) (r : TxnRow)
    (h : r.txn_hash ∈ dbHashes db) : insertOrIgnore db r = db := by
  unfold insertOrIgnore
  rw [if_pos ?_]
  obtain ⟨row, hrow, heq⟩ := List.mem_map.mp h
  exact List.any_eq_true.mpr ⟨row, hrow, by simp [heq]⟩

/-- Lemma: `insertOrIgnore` preserves fingerprint uniqueness. -/
theorem insertOrIgnore_nodup (db : List TxnRow) (r : TxnRow)
    (hn : (dbHashes db).Nodup) : (dbHashes (insertOrIgnore db r)).Nodup := by
  unfold insertOrIgnore
  split_ifs with h
  · exact hn
  · have hnotmem : r.txn_hash ∉ dbHashes db := by
      intro hmem
      obtain ⟨row, hrow, heq⟩ := List.mem_map.mp hmem
      exact h (List.any_eq_true.mpr ⟨row, hrow, by simp [heq]⟩)
    have he : dbHashes (db ++ [r]) = dbHashes db ++ [r.txn_hash] := by
      simp [dbHashes]
    rw [he, List.nodup_append]
    refine ⟨hn, List.nodup_singleton _, ?_⟩
    intro x hx1 hx2
    simp only [List.mem_singleton] at hx2
    exact hnotmem (hx2 ▸ hx1)

/-- After folding the insert over a transaction list, every processed
fingerprint is stored, and previously stored fingerprints remain. -/
theorem foldl_insert_hashes (txns : List ParsedTransaction) (doc : Nat)
    (now : String) :
    ∀ db : List TxnRow,
      dbHashes db ⊆ dbHashes
        (txns.foldl (fun acc t => insertOrIgnore acc (rowOf doc now t)) db)
      ∧ ∀ t ∈ txns, t.txn_hash ∈ dbHashes
        (txns.foldl (fun acc t => insertOrIgnore acc (rowOf doc now t)) db) := by
  induction txns with
  | nil => exact fun db => ⟨fun x hx => hx, by simp⟩
  | cons t rest ih =>
      intro db
      simp only [List.foldl_cons]
      obtain ⟨ihsub, ihmem⟩ := ih (insertOrIgnore db (rowOf doc now t))
      refine ⟨fun x hx => ihsub (insertOrIgnore_hashes_mono _ _ hx), ?_⟩
      intro s hs
      rcases List.mem_cons.mp hs with hh | hh
      · subst hh
        have hm : (rowOf doc now s).txn_hash
            ∈ dbHashes (insertOrIgnore db (rowOf doc now s)) :=
          insertOrIgnore_mem _ _
        exact ihsub hm
      · exact ihmem s hh

/-- Folding the insert over transactions whose fingerprints are all stored
changes nothing. -/
theorem foldl_insert_noop (txns : List ParsedTransaction) (doc : Nat)
    (now : String) :
    ∀ db : List TxnRow, (∀ t ∈ txns, t.txn_hash ∈ dbHashes db) →
      txns.foldl (fun acc t => insertOrIgnore acc (rowOf doc now t)) db = db := by
  induction txns with
  | nil => exact fun db _ => rfl
  | cons t rest ih =>
      intro db hall
      simp only [List.foldl_cons]
      have h1 : insertOrIgnore db (rowOf doc now t) = db :=
        insertOrIgnore_skip db (rowOf doc now t)
          (hall t (List.mem_cons_self t rest))
      rw [h1]
      exact ih db (fun s hs => hall s (List.mem_cons_of_mem _ hs))

/-- Folding the insert preserves fingerprint uniqueness. -/
theorem foldl_insert_nodup (txns : List ParsedTransaction) (doc : Nat)
    (now : String) :
    ∀ db : List TxnRow, (dbHashes db).Nodup →
      (dbHashes (txns.foldl
        (fun acc t => insertOrIgnore acc (rowOf doc now t)) db)).Nodup := by
  induction txns with
  | nil => exact fun db hn => hn
  | cons t rest ih =>
      intro db hn
      simp only [List.foldl_cons]
      exact ih _ (insertOrIgnore_nodup _ _ hn)

/-- Claim C9: re-inserting the same transaction sequence for the same
document is idempotent — the second call reports 0 newly inserted rows and
leaves the stored rows unchanged (re-insertion of an existing fingerprint
is silently skipped, and fingerprint uniqueness is preserved); the two
calls may carry different timestamps. -/
theorem claim_c9_idempotent_insert (db : List TxnRow) (doc : Nat)
    (now1 now2 : String) (txns : List ParsedTransaction) :
    (insert_transactions (insert_transactions db doc now1 txns).1 doc now2
        txns).2 = 0
    ∧ (insert_transactions (insert_transactions db doc now1 txns).1 doc now2
        txns).1 = (insert_transactions db doc now1 txns).1
    ∧ ((dbHashes db).Nodup →
        (dbHashes (insert_transactions db doc now1 txns).1).Nodup) := by
  by_cases he : txns.isEmpty
  · have hnil : txns = [] := List.isEmpty_iff.mp he
    subst hnil
    simp [insert_transactions]
  · have hmemall : ∀ t ∈ txns, t.txn_hash ∈ dbHashes
        (txns.foldl (fun acc t => insertOrIgnore acc (rowOf doc now1 t)) db) :=
      (foldl_insert_hashes txns doc now1 db).2
    have hnoop := foldl_insert_noop txns doc now2 _ hmemall
    refine ⟨?_, ?_, ?_⟩
    · simp only [insert_transactions, if_neg he, hnoop]
      omega
    · simp only [insert_transactions, if_neg he, hnoop]
    · intro hn
      simp only [insert_transactions, if_neg he]
      exact foldl_insert_nodup txns doc now1 db hn

/-- Witness for C9: inserting one concrete transaction twice into an empty
store keeps one row, reports 0 on the second call, and preserves
uniqueness. -/
theorem claim_c9_witness :
    (insert_transactions (insert_transactions [] 1 "t0"
        [ParsedTransaction.mk "2024-01-01" "buy" none none none none none
          (some 1) "s" "h"]).1 1 "t1"
        [ParsedTransaction.mk "2024-01-01" "buy" none none none none none
          (some 1) "s" "h"]).2 = 0
    ∧ (dbHashes (insert_transactions [] 1 "t0"
        [ParsedTransaction.mk "2024-01-01" "buy" none none none none none
          (some 1) "s" "h"]).1).Nodup := by
  have h := claim_c9_idempotent_insert [] 1 "t0" "t1"
    [ParsedTransaction.mk "2024-01-01" "buy" none none none none none
      (some 1) "s" "h"]
  exact ⟨h.1, h.2.2 (by decide)⟩
